import Mathlib

/-!
Shallow embedding of `src/fuel_test/ciswift.py` (`CiSwift.describe_environment`)
from the Zipfer/fuel repository, together with theorems settling the spec's
claims about it.

The data classes `Environment`, `Network`, `Node`, `Interface` live in the
external `devops.model` package; only the fields this file exercises are
modelled (per the spec's data model: an Environment has a name and ordered
collections of Networks and Nodes; a Network has a name and a dhcp_server
flag; a Node has a name and an ordered collection of Interfaces, one per
network it is attached to).

`self.describe_node` is supplied by the unseen `Ci` base class, so
`describe_environment` is parameterised over it; a second, state-threading
variant `describe_environmentS` makes the possible mutation of `self` by
`describe_node` explicit for the frame and determinism claims.
-/

/-- A virtual subnet: `Network(name=..., dhcp_server=...)` from `devops.model`. -/
structure Network where
  name : String
  dhcp_server : Bool
deriving DecidableEq

/-- An attachment of a node to a network (`devops.model.Interface`). -/
structure Interface where
  network : Network
deriving DecidableEq

/-- A machine definition: name plus ordered interfaces (`devops.model.Node`). -/
structure Node where
  name : String
  interfaces : List Interface
deriving DecidableEq

/-- The test-bed description: name, ordered networks, ordered nodes
(`devops.model.Environment`; freshly constructed ones have empty collections). -/
structure Environment where
  name : String
  networks : List Network
  nodes : List Node
deriving DecidableEq

/-- The three networks built by `describe_environment`, in construction order:
`internal` (DHCP on), `private` (DHCP off), `public` (DHCP on). -/
def swiftNetworks : List Network :=
  [⟨"internal", true⟩, ⟨"private", false⟩, ⟨"public", true⟩]

/-- Body of each `for node_name in ...` loop:
`client = self.describe_node(node_name, [internal, private, public])`
followed by `environment.nodes.append(client)`. -/
def appendNode (describe_node : String → List Network → Node)
    (nets : List Network) (env : Environment) (node_name : String) : Environment :=
  let client := describe_node node_name nets
  { env with nodes := env.nodes ++ [client] }

/-- `CiSwift.describe_environment`, parameterised over the `Ci` base class's
`describe_node` factory and `environment_name`, and over the three
settings lists (`keystones`, `storages`, `proxies`). -/
def describe_environment (describe_node : String → List Network → Node)
    (environment_name : String)
    (keystones storages proxies : List String) : Environment :=
  let environment : Environment := ⟨environment_name, [], []⟩
  let internal : Network := ⟨"internal", true⟩
  let environment := { environment with networks := environment.networks ++ [internal] }
  let privateNet : Network := ⟨"private", false⟩
  let environment := { environment with networks := environment.networks ++ [privateNet] }
  let publicNet : Network := ⟨"public", true⟩
  let environment := { environment with networks := environment.networks ++ [publicNet] }
  let master := describe_node "master" [internal, privateNet, publicNet]
  let environment := { environment with nodes := environment.nodes ++ [master] }
  let environment :=
    List.foldl (appendNode describe_node [internal, privateNet, publicNet])
      environment keystones
  let environment :=
    List.foldl (appendNode describe_node [internal, privateNet, publicNet])
      environment storages
  let environment :=
    List.foldl (appendNode describe_node [internal, privateNet, publicNet])
      environment proxies
  environment

/-- Modelled from the spec: the unseen `Ci.describe_node(name, networks)`
factory (defined outside this excerpt). Per the spec's data model a Node
carries its name and one Interface per network it is attached to. -/
def describe_node_spec (name : String) (networks : List Network) : Node :=
  ⟨name, networks.map (fun n => ⟨n⟩)⟩

/-- Loop body of the state-threading variant: `describe_node` may read and
update the state `σ` of `self` when producing the Node. -/
def appendNodeS {σ : Type} (describe_node : σ → String → List Network → Node × σ)
    (nets : List Network) (es : Environment × σ) (node_name : String) : Environment × σ :=
  let cs := describe_node es.2 node_name nets
  ({ es.1 with nodes := es.1.nodes ++ [cs.1] }, cs.2)

/-- `CiSwift.describe_environment` with the state of `self` threaded
explicitly, so that mutation performed by the `describe_node` factory (the
only collaborator the method calls) is visible in the embedding. -/
def describe_environmentS {σ : Type} (describe_node : σ → String → List Network → Node × σ)
    (s : σ) (environment_name : String)
    (keystones storages proxies : List String) : Environment × σ :=
  let environment : Environment := ⟨environment_name, [], []⟩
  let internal : Network := ⟨"internal", true⟩
  let environment := { environment with networks := environment.networks ++ [internal] }
  let privateNet : Network := ⟨"private", false⟩
  let environment := { environment with networks := environment.networks ++ [privateNet] }
  let publicNet : Network := ⟨"public", true⟩
  let environment := { environment with networks := environment.networks ++ [publicNet] }
  let ms := describe_node s "master" [internal, privateNet, publicNet]
  let environment := { environment with nodes := environment.nodes ++ [ms.1] }
  let es :=
    List.foldl (appendNodeS describe_node [internal, privateNet, publicNet])
      (environment, ms.2) keystones
  let es :=
    List.foldl (appendNodeS describe_node [internal, privateNet, publicNet])
      es storages
  let es :=
    List.foldl (appendNodeS describe_node [internal, privateNet, publicNet])
      es proxies
  es

/-- Variant counting loop iterations: identical to `describe_environment`
except that every execution of a `for` loop body increments a counter. -/
def describe_environment_steps (describe_node : String → List Network → Node)
    (environment_name : String)
    (keystones storages proxies : List String) : Environment × Nat :=
  let step := fun (ek : Environment × Nat) (node_name : String) =>
    (appendNode describe_node [⟨"internal", true⟩, ⟨"private", false⟩, ⟨"public", true⟩]
      ek.1 node_name, ek.2 + 1)
  let environment : Environment :=
    ⟨environment_name, swiftNetworks,
      [describe_node "master" swiftNetworks]⟩
  let ek := List.foldl step (environment, 0) keystones
  let ek := List.foldl step ek storages
  let ek := List.foldl step ek proxies
  ek

/-! ### Helper lemmas -/

/-- Folding the loop body over a name list appends one node per name, in
list order, and leaves the other fields alone. -/
theorem foldl_appendNode (dn : String → List Network → Node) (nets : List Network)
    (env : Environment) (names : List String) :
    List.foldl (appendNode dn nets) env names
      = { env with nodes := env.nodes ++ names.map (fun n => dn n nets) } := by
  induction names generalizing env with
  | nil => simp
  | cons a t ih => simp [appendNode, ih]

/-- Closed form of `describe_environment`: name unchanged, the three fixed
networks, and master followed by one node per settings name in order. -/
theorem describe_environment_eq (dn : String → List Network → Node)
    (en : String) (ks ss ps : List String) :
    describe_environment dn en ks ss ps
      = ⟨en, swiftNetworks,
          dn "master" swiftNetworks ::
            (ks.map (fun n => dn n swiftNetworks) ++ ss.map (fun n => dn n swiftNetworks)
              ++ ps.map (fun n => dn n swiftNetworks))⟩ := by
  simp [describe_environment, foldl_appendNode, swiftNetworks]

/-- The state component of the stateful loop is the fold of the factory's
state transition over the name list. -/
theorem foldl_appendNodeS_snd {σ : Type} (dn : σ → String → List Network → Node × σ)
    (nets : List Network) (es : Environment × σ) (names : List String) :
    (List.foldl (appendNodeS dn nets) es names).2
      = List.foldl (fun t nm => (dn t nm nets).2) es.2 names := by
  induction names generalizing es with
  | nil => rfl
  | cons a t ih => simp [appendNodeS, ih]

/-- When the factory's node output does not depend on the state, the
environment component of the stateful loop is the pure loop. -/
theorem foldl_appendNodeS_fst {σ : Type} (dn : σ → String → List Network → Node × σ)
    (f : String → List Network → Node)
    (hf : ∀ s nm nets, (dn s nm nets).1 = f nm nets)
    (nets : List Network) (es : Environment × σ) (names : List String) :
    (List.foldl (appendNodeS dn nets) es names).1
      = List.foldl (appendNode f nets) es.1 names := by
  induction names generalizing es with
  | nil => rfl
  | cons a t ih => simp [appendNodeS, appendNode, ih, hf]

/-- With a state-independent factory, the stateful embedding returns the same
Environment as the pure one, from any initial state. -/
theorem describe_environmentS_fst {σ : Type} (dn : σ → String → List Network → Node × σ)
    (f : String → List Network → Node)
    (hf : ∀ s nm nets, (dn s nm nets).1 = f nm nets)
    (s : σ) (en : String) (ks ss ps : List String) :
    (describe_environmentS dn s en ks ss ps).1 = describe_environment f en ks ss ps := by
  simp only [describe_environmentS, describe_environment]
  rw [foldl_appendNodeS_fst dn f hf, foldl_appendNodeS_fst dn f hf,
    foldl_appendNodeS_fst dn f hf]
  simp [hf]

/-- Folding a function that returns its accumulator unchanged is the identity. -/
theorem foldl_fixed_acc {α β : Type} (s : α) (l : List β) :
    List.foldl (fun t (_ : β) => t) s l = s := by
  induction l with
  | nil => rfl
  | cons a t ih => exact ih

/-- The environment component of the counting fold is the plain loop. -/
theorem foldl_count_fst (dn : String → List Network → Node) (nets : List Network)
    (ek : Environment × Nat) (l : List String) :
    (List.foldl (fun p nm => (appendNode dn nets p.1 nm, p.2 + 1)) ek l).1
      = List.foldl (appendNode dn nets) ek.1 l := by
  induction l generalizing ek with
  | nil => rfl
  | cons a t ih => simp [ih]

/-- The counter component of the counting fold advances once per list element. -/
theorem foldl_count_snd (dn : String → List Network → Node) (nets : List Network)
    (ek : Environment × Nat) (l : List String) :
    (List.foldl (fun p nm => (appendNode dn nets p.1 nm, p.2 + 1)) ek l).2
      = ek.2 + l.length := by
  induction l generalizing ek with
  | nil => rfl
  | cons a t ih => simp [ih]; omega

/-! ### Claim theorems -/

/-- C1: for every (possibly empty) settings lists, the nodes collection of
the Environment returned by `describe_environment` is exactly: the master
node first, then one node per keystone name in list order, then one node per
storage name in list order, then one node per proxy name in list order, each
built by `describe_node` on the three-network list. -/
theorem describe_environment_node_order (dn : String → List Network → Node)
    (en : String) (ks ss ps : List String) :
    (describe_environment dn en ks ss ps).nodes
      = dn "master" swiftNetworks ::
          (ks.map (fun n => dn n swiftNetworks) ++ ss.map (fun n => dn n swiftNetworks)
            ++ ps.map (fun n => dn n swiftNetworks)) := by
  simp [describe_environment_eq]

/-- C2: for any non-empty settings lists, the networks collection is exactly
the three Networks named internal, private, public in that order, with
dhcp_server flags true, false, true respectively. -/
theorem describe_environment_networks (dn : String → List Network → Node)
    (en : String) (ks ss ps : List String)
    (hk : ks ≠ []) (hs : ss ≠ []) (hp : ps ≠ []) :
    (describe_environment dn en ks ss ps).networks
        = [⟨"internal", true⟩, ⟨"private", false⟩, ⟨"public", true⟩] ∧
      (describe_environment dn en ks ss ps).networks.map Network.name
        = ["internal", "private", "public"] ∧
      (describe_environment dn en ks ss ps).networks.map Network.dhcp_server
        = [true, false, true] := by
  refine ⟨?_, ?_, ?_⟩ <;> simp [describe_environment_eq, swiftNetworks]

/-- Witness for C2 at concrete non-empty lists. -/
theorem describe_environment_networks_witness :
    (describe_environment describe_node_spec "env" ["k"] ["s"] ["p"]).networks.map Network.name
      = ["internal", "private", "public"] :=
  (describe_environment_networks describe_node_spec "env" ["k"] ["s"] ["p"]
    (by decide) (by decide) (by decide)).2.1

/-- C3: for every settings lists, the Environment contains exactly
1 + len keystones + len storages + len proxies Nodes. -/
theorem describe_environment_node_count (dn : String → List Network → Node)
    (en : String) (ks ss ps : List String) :
    (describe_environment dn en ks ss ps).nodes.length
      = 1 + ks.length + ss.length + ps.length := by
  simp [describe_environment_eq]
  omega

/-- C4: every Node appended by `describe_environment` is built by
`describe_node` on exactly the three-network list stored in the result's
networks field, and, when `describe_node` makes one Interface per network in
its argument list, every Node in the result has interface count 3. -/
theorem describe_environment_nodes_attached (dn : String → List Network → Node)
    (hdn : ∀ nm nets, (dn nm nets).interfaces.length = nets.length)
    (en : String) (ks ss ps : List String) :
    ∀ nd ∈ (describe_environment dn en ks ss ps).nodes,
      (∃ nm, nd = dn nm (describe_environment dn en ks ss ps).networks) ∧
        nd.interfaces.length = 3 := by
  have hnets : (describe_environment dn en ks ss ps).networks = swiftNetworks := by
    simp [describe_environment_eq]
  intro nd hnd
  rw [describe_environment_eq] at hnd
  rw [hnets]
  simp only [List.mem_cons, List.mem_append, List.mem_map] at hnd
  rcases hnd with h | ⟨⟨n, hn, h⟩ | ⟨n, hn, h⟩⟩ | ⟨n, hn, h⟩ <;> subst h <;>
    exact ⟨⟨_, rfl⟩, by rw [hdn]; rfl⟩

/-- Witness for C4: with the spec-modelled factory, every node of a concrete
build is attached to all 3 networks. -/
theorem describe_environment_nodes_attached_witness :
    (describe_node_spec "k1" swiftNetworks).interfaces.length = 3 :=
  (describe_environment_nodes_attached describe_node_spec
      (fun nm nets => by simp [describe_node_spec]) "env" ["k1"] ["s1", "s2"] []
      (describe_node_spec "k1" swiftNetworks) (by decide)).2

/-- C5: on keystones = [keystone-1], storages = [storage-1, storage-2],
proxies = [], the result has exactly 4 nodes named master, keystone-1,
storage-1, storage-2 in order, each attached to 3 networks, and exactly 3
networks named internal, private, public with DHCP flags true, false, true. -/
theorem describe_environment_example :
    (describe_environment describe_node_spec "env"
        ["keystone-1"] ["storage-1", "storage-2"] []).nodes.length = 4 ∧
      (describe_environment describe_node_spec "env"
          ["keystone-1"] ["storage-1", "storage-2"] []).nodes.map Node.name
        = ["master", "keystone-1", "storage-1", "storage-2"] ∧
      (∀ nd ∈ (describe_environment describe_node_spec "env"
          ["keystone-1"] ["storage-1", "storage-2"] []).nodes,
        nd.interfaces.length = 3) ∧
      (describe_environment describe_node_spec "env"
          ["keystone-1"] ["storage-1", "storage-2"] []).networks.map Network.name
        = ["internal", "private", "public"] ∧
      (describe_environment describe_node_spec "env"
          ["keystone-1"] ["storage-1", "storage-2"] []).networks.map Network.dhcp_server
        = [true, false, true] := by
  decide

/-- C6: `describe_environment` is deterministic: with the same
environment_name, settings lists and a deterministic (state-independent)
`describe_node` factory, two runs from any two states of `self` return equal
Environments, equal to the pure function of those inputs alone. -/
theorem describe_environment_deterministic {σ : Type}
    (dn : σ → String → List Network → Node × σ) (f : String → List Network → Node)
    (hf : ∀ s nm nets, (dn s nm nets).1 = f nm nets)
    (en : String) (ks ss ps : List String) (s1 s2 : σ) :
    (describe_environmentS dn s1 en ks ss ps).1
        = (describe_environmentS dn s2 en ks ss ps).1 ∧
      (describe_environmentS dn s1 en ks ss ps).1 = describe_environment f en ks ss ps := by
  rw [describe_environmentS_fst dn f hf, describe_environmentS_fst dn f hf]
  exact ⟨rfl, rfl⟩

/-- Witness for C6 with a state-independent factory over a Unit state. -/
theorem describe_environment_deterministic_witness :
    (describe_environmentS (fun (s : Unit) nm nets => (describe_node_spec nm nets, s))
        () "env" ["k"] [] []).1
      = describe_environment describe_node_spec "env" ["k"] [] [] :=
  (describe_environment_deterministic
      (fun (s : Unit) nm nets => (describe_node_spec nm nets, s))
      describe_node_spec (fun _ _ _ => rfl) "env" ["k"] [] [] () ()).2

/-- C7: `describe_environment` is total: for every settings lists (empty or
with duplicates) it returns a fully populated Environment and raises
nothing itself. -/
theorem describe_environment_total (dn : String → List Network → Node)
    (en : String) (ks ss ps : List String) :
    ∃ env : Environment, describe_environment dn en ks ss ps = env ∧
      env.name = en ∧ env.networks.length = 3 ∧
      env.nodes.length = 1 + ks.length + ss.length + ps.length := by
  refine ⟨describe_environment dn en ks ss ps, rfl, ?_, ?_, ?_⟩ <;>
    simp [describe_environment_eq, swiftNetworks] <;> omega

/-- C8: the only state of `self` touched by `describe_environment` flows
through the `describe_node` calls: the final state is exactly the fold of
the factory's state transition over master and the three untouched settings
lists, so a factory that mutates nothing leaves the state unchanged. -/
theorem describe_environment_state_frame {σ : Type}
    (dn : σ → String → List Network → Node × σ) (s : σ)
    (en : String) (ks ss ps : List String) :
    (describe_environmentS dn s en ks ss ps).2
        = List.foldl (fun t nm => (dn t nm swiftNetworks).2) s
            ("master" :: (ks ++ ss ++ ps)) ∧
      ((∀ t nm nets, (dn t nm nets).2 = t) →
        (describe_environmentS dn s en ks ss ps).2 = s) := by
  have h1 : (describe_environmentS dn s en ks ss ps).2
      = List.foldl (fun t nm => (dn t nm swiftNetworks).2) s
          ("master" :: (ks ++ ss ++ ps)) := by
    simp [describe_environmentS, foldl_appendNodeS_snd, List.foldl_append, swiftNetworks]
  refine ⟨h1, fun h => ?_⟩
  rw [h1]
  simp only [h]
  rw [List.foldl_cons]
  exact foldl_fixed_acc s (ks ++ ss ++ ps)

/-- Witness for C8 with a mutation-free factory over a Nat state. -/
theorem describe_environment_state_frame_witness :
    (describe_environmentS (fun (s : Nat) nm nets => (describe_node_spec nm nets, s))
        0 "env" ["k"] [] []).2 = 0 :=
  (describe_environment_state_frame
      (fun (s : Nat) nm nets => (describe_node_spec nm nets, s))
      0 "env" ["k"] [] []).2 (fun _ _ _ => rfl)

/-- C9: `describe_environment` terminates for every finite settings lists:
its only iteration is the three loops, and the number of loop-body
executions is exactly len keystones + len storages + len proxies. -/
theorem describe_environment_steps_bounded (dn : String → List Network → Node)
    (en : String) (ks ss ps : List String) :
    (describe_environment_steps dn en ks ss ps).1 = describe_environment dn en ks ss ps ∧
      (describe_environment_steps dn en ks ss ps).2
        = ks.length + ss.length + ps.length := by
  constructor
  · rw [describe_environment_eq]
    simp [describe_environment_steps, foldl_count_fst, foldl_appendNode, swiftNetworks]
  · simp [describe_environment_steps, foldl_count_snd]

/-- C10: the Environment's name is exactly the environment_name the
constructor received, and with all three settings lists empty the result
still has exactly 3 networks and exactly 1 node, the master. -/
theorem describe_environment_name_and_empty (dn : String → List Network → Node)
    (en : String) (ks ss ps : List String) :
    (describe_environment dn en ks ss ps).name = en ∧
      (describe_environment dn en [] [] []).networks.length = 3 ∧
      (describe_environment dn en [] [] []).nodes = [dn "master" swiftNetworks] := by
  refine ⟨?_, ?_, ?_⟩ <;> simp [describe_environment_eq, swiftNetworks]
